import Mathlib

/-!
Shallow embedding of the TableGenerator application (src/app/page.tsx) and
verification of its specified properties.

The component state consists of a `TableConfig` record, a list of
`MergedCell` span records, a `nextCellId` counter and a list of selected
cell coordinates.  All JavaScript numbers that hold integral grid values
are modelled as `Int` (deltas coming from pointer arithmetic are signed).
-/

namespace TableGen

/-- `borderStyle` field: 'solid' | 'dashed' | 'none'. -/
inductive BorderStyle
  | solid
  | dashed
  | none
deriving DecidableEq, Repr

/-- The literal string of a `BorderStyle` value, as interpolated by the
template literals in the source. -/
def BorderStyle.text : BorderStyle → String
  | .solid => "solid"
  | .dashed => "dashed"
  | .none => "none"

/-- An element of the `selectedCells` state: `{row: number, col: number}`. -/
structure CellPos where
  row : Int
  col : Int
deriving DecidableEq, Repr

/-- `interface TableConfig` from page.tsx. -/
structure TableConfig where
  rows : Int
  columns : Int
  gap : Int
  borderStyle : BorderStyle
  borderColor : String
  cellPadding : Int
  cellBackgroundColor : String
  borderRadius : Int
  fillSampleText : Bool
  columnWidths : List Int
  rowHeights : List Int
deriving DecidableEq, Repr

/-- `interface MergedCell` from page.tsx. -/
structure MergedCell where
  id : Int
  rowStart : Int
  rowEnd : Int
  colStart : Int
  colEnd : Int
  content : String
deriving DecidableEq, Repr

/-- The component state relevant to the grid/merge model: the `useState`
hooks `config`, `mergedCells`, `nextCellId` and `selectedCells`.
(`dragState` only gates event routing and carries no grid geometry.) -/
structure AppState where
  config : TableConfig
  mergedCells : List MergedCell
  nextCellId : Int
  selectedCells : List CellPos
deriving DecidableEq, Repr

/-- The membership test `row >= cell.rowStart && row < cell.rowEnd &&
col >= cell.colStart && col < cell.colEnd` that page.tsx repeats inline in
`isCellMerged`, `getMergedCell` and the unmerge filter of `handleCellClick`. -/
def covers (cell : MergedCell) (row col : Int) : Bool :=
  decide (cell.rowStart ≤ row ∧ row < cell.rowEnd ∧
          cell.colStart ≤ col ∧ col < cell.colEnd)

/-- `isCellMerged` from page.tsx: `mergedCells.some(...)`. -/
def isCellMerged (mergedCells : List MergedCell) (row col : Int) : Bool :=
  mergedCells.any fun cell => covers cell row col

/-- `getMergedCell` from page.tsx: `mergedCells.find(...)` (first match). -/
def getMergedCell (mergedCells : List MergedCell) (row col : Int) : Option MergedCell :=
  mergedCells.find? fun cell => covers cell row col

/-- `Math.min(...)` over a spread list, as used on the selection's rows and
columns.  The merge paths only ever call it on a nonempty list (selection
length ≥ 2); the `[]` value 0 is a placeholder for the unreachable
no-argument case. -/
def listMin : List Int → Int
  | [] => 0
  | a :: l => l.foldl min a

/-- `Math.max(...)` over a spread list; see `listMin`. -/
def listMax : List Int → Int
  | [] => 0
  | a :: l => l.foldl max a

/-- The `newMergedCell` record built inside `handleCellClick` (and by the
"Merge Selected Cells" button, which runs the same code): bounding box of
the selection, content `Merged {id}` when sample text is on. -/
def mergedCellFromSelection (fillSampleText : Bool) (nextCellId : Int)
    (newSelection : List CellPos) : MergedCell :=
  let minRow := listMin (newSelection.map CellPos.row)
  let maxRow := listMax (newSelection.map CellPos.row)
  let minCol := listMin (newSelection.map CellPos.col)
  let maxCol := listMax (newSelection.map CellPos.col)
  { id := nextCellId
    rowStart := minRow
    rowEnd := maxRow + 1
    colStart := minCol
    colEnd := maxCol + 1
    content := if fillSampleText then "Merged " ++ toString nextCellId else "" }

/-- The state update performed by the `setTimeout` body of `handleCellClick`
once the selection has reached size ≥ 2: append the new span, bump the id
counter, clear the selection.  (The 100 ms delay only defers the update; it
does not change it.) -/
def completeMerge (st : AppState) (newSelection : List CellPos) : AppState :=
  { st with
    mergedCells := st.mergedCells ++
      [mergedCellFromSelection st.config.fillSampleText st.nextCellId newSelection]
    nextCellId := st.nextCellId + 1
    selectedCells := [] }

/-- `handleCellClick` from page.tsx.  The `dragState` guard at its top only
suppresses clicks during a drag; the grid-state transition below is what it
performs when it runs. -/
def handleCellClick (st : AppState) (row col : Int) : AppState :=
  if isCellMerged st.mergedCells row col then
    { st with
      mergedCells := st.mergedCells.filter fun cell => !(covers cell row col)
      selectedCells := [] }
  else if st.selectedCells.any fun cell => cell.row == row && cell.col == col then
    { st with
      selectedCells := st.selectedCells.filter fun cell =>
        !(cell.row == row && cell.col == col) }
  else
    let newSelection := st.selectedCells ++ [⟨row, col⟩]
    if 2 ≤ newSelection.length then completeMerge st newSelection
    else { st with selectedCells := newSelection }

/-!  Drag / resize steps.

`handleDragMove` and `handleResizeMove` turn the raw pointer displacement
into integral grid deltas (`Math.round(delta * sensitivity / (avgCell +
gap))`) and then update `mergedCells`.  We embed the state update after the
delta computation: the theorems quantify over all integer `colDelta` /
`rowDelta`, hence over every possible pointer displacement outcome.  The
early-return thresholds (`|delta| < 8` resp. `< 10`) and the 16 ms throttle
leave the state unchanged and so are subsumed by the quantification
together with the identity case. -/

/-- The `setMergedCells(prev => prev.map(...))` update of `handleDragMove`:
shift the dragged span, clamped to the table, preserving its size. -/
def handleDragMoveCells (rows columns : Int) (dragCellId : Int)
    (colDelta rowDelta : Int) (cells : List MergedCell) : List MergedCell :=
  cells.map fun cell =>
    if cell.id == dragCellId then
      let rowSpan := cell.rowEnd - cell.rowStart
      let colSpan := cell.colEnd - cell.colStart
      let newColStart := max 0 (min (cell.colStart + colDelta) (columns - colSpan))
      let newRowStart := max 0 (min (cell.rowStart + rowDelta) (rows - rowSpan))
      if newColStart == cell.colStart && newRowStart == cell.rowStart then cell
      else
        { cell with
          colStart := newColStart
          colEnd := newColStart + colSpan
          rowStart := newRowStart
          rowEnd := newRowStart + rowSpan }
    else cell

/-- The `setMergedCells(prev => prev.map(...))` update of `handleResizeMove`:
grow/shrink the dragged span's end coordinates, floored one unit past the
start and capped at the table bounds. -/
def handleResizeMoveCells (rows columns : Int) (dragCellId : Int)
    (colDelta rowDelta : Int) (cells : List MergedCell) : List MergedCell :=
  cells.map fun cell =>
    if cell.id == dragCellId then
      let originalColSpan := cell.colEnd - cell.colStart
      let originalRowSpan := cell.rowEnd - cell.rowStart
      let newColEnd := max (cell.colStart + 1)
        (min (cell.colStart + originalColSpan + colDelta) columns)
      let newRowEnd := max (cell.rowStart + 1)
        (min (cell.rowStart + originalRowSpan + rowDelta) rows)
      if newColEnd == cell.colEnd && newRowEnd == cell.rowEnd then cell
      else { cell with colEnd := newColEnd, rowEnd := newRowEnd }
    else cell

/-- `handleColumnResizeMove`: write `max(40, widths[i] + deltaX)` at index
`i` of `columnWidths`.  (JS out-of-range indexing yields `undefined`/`NaN`;
the handler is only ever started on an existing handle index, so `getD`'s
default is unreachable.) -/
def handleColumnResizeMove (cfg : TableConfig) (resizingColumnIndex : Nat)
    (deltaX : Int) : TableConfig :=
  let newWidth := max 40 (cfg.columnWidths.getD resizingColumnIndex 0 + deltaX)
  { cfg with
    columnWidths := cfg.columnWidths.mapIdx fun index width =>
      if index == resizingColumnIndex then newWidth else width }

/-- `handleRowResizeMove`: write `max(30, heights[i] + deltaY)` at index `i`
of `rowHeights`. -/
def handleRowResizeMove (cfg : TableConfig) (resizingRowIndex : Nat)
    (deltaY : Int) : TableConfig :=
  let newHeight := max 30 (cfg.rowHeights.getD resizingRowIndex 0 + deltaY)
  { cfg with
    rowHeights := cfg.rowHeights.mapIdx fun index height =>
      if index == resizingRowIndex then newHeight else height }

/-- `handleIndividualCellResizeMove`: adjust the owning column's width and
the owning row's height simultaneously. -/
def handleIndividualCellResizeMove (cfg : TableConfig)
    (resizingCellRow resizingCellCol : Nat) (deltaX deltaY : Int) : TableConfig :=
  let newColWidth := max 40 (cfg.columnWidths.getD resizingCellCol 0 + deltaX)
  let newRowHeight := max 30 (cfg.rowHeights.getD resizingCellRow 0 + deltaY)
  { cfg with
    columnWidths := cfg.columnWidths.mapIdx fun index width =>
      if index == resizingCellCol then newColWidth else width
    rowHeights := cfg.rowHeights.mapIdx fun index height =>
      if index == resizingCellRow then newRowHeight else height }

/-- The keys accepted by `updateConfig(key, value)`, with their payloads. -/
inductive ConfigUpdate
  | rows (v : Int)
  | columns (v : Int)
  | gap (v : Int)
  | borderStyle (v : BorderStyle)
  | borderColor (v : String)
  | cellPadding (v : Int)
  | cellBackgroundColor (v : String)
  | borderRadius (v : Int)
  | fillSampleText (v : Bool)
deriving DecidableEq, Repr

/-- `updateConfig`: `setConfig(prev => ({ ...prev, [key]: value }))`. -/
def updateConfig (cfg : TableConfig) : ConfigUpdate → TableConfig
  | .rows v => { cfg with rows := v }
  | .columns v => { cfg with columns := v }
  | .gap v => { cfg with gap := v }
  | .borderStyle v => { cfg with borderStyle := v }
  | .borderColor v => { cfg with borderColor := v }
  | .cellPadding v => { cfg with cellPadding := v }
  | .cellBackgroundColor v => { cfg with cellBackgroundColor := v }
  | .borderRadius v => { cfg with borderRadius := v }
  | .fillSampleText v => { cfg with fillSampleText := v }

/-- Does this update touch `config.rows` or `config.columns` (the
dependencies of the array-reset `useEffect`)? -/
def ConfigUpdate.touchesDims : ConfigUpdate → Bool
  | .rows _ => true
  | .columns _ => true
  | _ => false

/-- The `useEffect` on `[config.columns, config.rows]`:
`columnWidths := Array(columns).fill(80)`, `rowHeights :=
Array(rows).fill(50)`.  (`Array(n)` requires `n ≥ 0` in JS; `toNat` maps
the in-range values identically.) -/
def dimensionEffect (cfg : TableConfig) : TableConfig :=
  { cfg with
    columnWidths := List.replicate cfg.columns.toNat 80
    rowHeights := List.replicate cfg.rows.toNat 50 }

/-- A config update followed by the array-reset effect when it fires (its
dependency array is `[config.columns, config.rows]`). -/
def applyConfigUpdate (st : AppState) (u : ConfigUpdate) : AppState :=
  let cfg := updateConfig st.config u
  { st with config := if u.touchesDims then dimensionEffect cfg else cfg }

/-- The `useState` initial `config` (also what `resetTable` restores). -/
def initialConfig : TableConfig :=
  { rows := 3
    columns := 3
    gap := 8
    borderStyle := .solid
    borderColor := "#000000"
    cellPadding := 8
    cellBackgroundColor := "#ffffff"
    borderRadius := 0
    fillSampleText := false
    columnWidths := List.replicate 3 80
    rowHeights := List.replicate 3 50 }

/-- The initial component state. -/
def initialState : AppState :=
  { config := initialConfig
    mergedCells := []
    nextCellId := 1
    selectedCells := [] }

/-- `resetTable`: restore the defaults, clear spans and selection, and set
`nextCellId` back to 1. -/
def resetTable (_st : AppState) : AppState := initialState

/-!  Renderer. -/

/-- `config.borderStyle === 'none' ? 'none' : `1px ${style} ${color}``,
shared by `generateTableHTML` and `generateCSS`. -/
def borderValue (cfg : TableConfig) : String :=
  if cfg.borderStyle = BorderStyle.none then "none"
  else "1px " ++ cfg.borderStyle.text ++ " " ++ cfg.borderColor

/-- The cell emitted (or skipped) by `generateTableHTML` at coordinate
`(i, j)`: anchors of spans produce a rowspan/colspan cell, coordinates
covered by a span but not its anchor produce nothing, all others produce a
plain cell.  (In the source the skip branch is `else if (!isCellMerged(i,
j))`; `isCellMerged` is `some` and `getMergedCell` is `find` of the same
predicate, so `getMergedCell = none` exactly when `isCellMerged` is false.) -/
def cellHTML (cfg : TableConfig) (mergedCells : List MergedCell)
    (selectedCells : List CellPos) (i j : Int) : Option String :=
  match getMergedCell mergedCells i j with
  | some mergedCell =>
    if i = mergedCell.rowStart ∧ j = mergedCell.colStart then
      let rowSpan := mergedCell.rowEnd - mergedCell.rowStart
      let colSpan := mergedCell.colEnd - mergedCell.colStart
      some ("    <td style=\"border: " ++ borderValue cfg ++ "; padding: " ++
        toString cfg.cellPadding ++ "px; background-color: " ++
        cfg.cellBackgroundColor ++ "; border-radius: " ++
        toString cfg.borderRadius ++ "px;\" rowspan=\"" ++ toString rowSpan ++
        "\" colspan=\"" ++ toString colSpan ++ "\">" ++ mergedCell.content ++
        "</td>\n")
    else Option.none
  | Option.none =>
    let isSelected := selectedCells.any fun cell => cell.row == i && cell.col == j
    let cellContent :=
      if cfg.fillSampleText then "Cell " ++ toString (i + 1) ++ "-" ++ toString (j + 1)
      else ""
    let bgColor := if isSelected then "#dbeafe" else cfg.cellBackgroundColor
    some ("    <td style=\"border: " ++ borderValue cfg ++ "; padding: " ++
      toString cfg.cellPadding ++ "px; background-color: " ++ bgColor ++
      "; border-radius: " ++ toString cfg.borderRadius ++ "px;\">" ++
      cellContent ++ "</td>\n")

/-- The cell elements emitted for row `i` by the inner `j` loop of
`generateTableHTML`. -/
def rowCellsHTML (st : AppState) (i : Int) : List String :=
  (List.range st.config.columns.toNat).filterMap fun (j : Nat) =>
    cellHTML st.config st.mergedCells st.selectedCells i (j : Int)

/-- One `<tr>` row group of the generated markup. -/
def rowHTML (st : AppState) (i : Int) : String :=
  "  <tr>\n" ++ String.join (rowCellsHTML st i) ++ "  </tr>\n"

/-- The row groups emitted by the outer `i` loop of `generateTableHTML`. -/
def tableRowsHTML (st : AppState) : List String :=
  (List.range st.config.rows.toNat).map fun (i : Nat) => rowHTML st (i : Int)

/-- `generateTableHTML` from page.tsx. -/
def generateTableHTML (st : AppState) : String :=
  "<table style=\"border-collapse: collapse;\">\n" ++
    String.join (tableRowsHTML st) ++ "</table>"

/-- The leading `table { ... }` rule of `generateCSS` (constant text). -/
def cssTableRule : String :=
  "table \x7b\n  border-collapse: collapse;\n  width: 100%;\n\x7d\n\n"

/-- The shared `td { ... }` rule of `generateCSS`. -/
def cssTdRule (cfg : TableConfig) : String :=
  "td \x7b\n  border: " ++ borderValue cfg ++ ";\n  padding: " ++
    toString cfg.cellPadding ++ "px;\n  background-color: " ++
    cfg.cellBackgroundColor ++ ";\n  border-radius: " ++
    toString cfg.borderRadius ++ "px;\n\x7d"

/-- The per-column rule appended by `config.columnWidths.forEach`. -/
def columnSizeRule (index : Nat) (width : Int) : String :=
  "\n\ntd:nth-child(" ++ toString (index + 1) ++ ") \x7b\n  width: " ++
    toString width ++ "px;\n\x7d"

/-- The per-row rule appended by `config.rowHeights.forEach`. -/
def rowSizeRule (index : Nat) (height : Int) : String :=
  "\n\ntr:nth-child(" ++ toString (index + 1) ++ ") td \x7b\n  height: " ++
    toString height ++ "px;\n\x7d"

/-- The list of per-column rules (the `forEach` appends them in order). -/
def columnSizeRules (cfg : TableConfig) : List String :=
  cfg.columnWidths.mapIdx columnSizeRule

/-- The list of per-row rules. -/
def rowSizeRules (cfg : TableConfig) : List String :=
  cfg.rowHeights.mapIdx rowSizeRule

/-- `generateCSS` from page.tsx: base rules, then one width rule per column
index, then one height rule per row index. -/
def generateCSS (cfg : TableConfig) : String :=
  cssTableRule ++ cssTdRule cfg ++
    String.join (columnSizeRules cfg) ++ String.join (rowSizeRules cfg)

/-- `generateCSS` as called by the component: it closes over the `config`
state only (`useCallback(..., [config])`), never over `mergedCells`,
`selectedCells` or `nextCellId`. -/
def generateCSSOfState (st : AppState) : String := generateCSS st.config

/-!  The operations of the system, as a step function over `AppState`. -/

/-- One user-level operation: a cell click (select / unmerge / merge), the
red × button on a span, a settings-field update (with its dimension
effect), a move or resize drag step with its computed grid deltas, an axis
or single-cell resize step, or the reset button. -/
inductive Op
  | click (row col : Int)
  | removeSpan (spanId : Int)
  | setField (u : ConfigUpdate)
  | dragMove (dragCellId colDelta rowDelta : Int)
  | resizeMove (dragCellId colDelta rowDelta : Int)
  | columnResize (index : Nat) (deltaX : Int)
  | rowResize (index : Nat) (deltaY : Int)
  | cellResize (rowIndex colIndex : Nat) (deltaX deltaY : Int)
  | reset
deriving DecidableEq, Repr

/-- The state transition of each operation, read off the corresponding
handler in page.tsx. -/
def step (st : AppState) : Op → AppState
  | .click row col => handleCellClick st row col
  | .removeSpan spanId =>
    { st with mergedCells := st.mergedCells.filter fun cell => !(cell.id == spanId) }
  | .setField u => applyConfigUpdate st u
  | .dragMove dragCellId colDelta rowDelta =>
    { st with
      mergedCells := handleDragMoveCells st.config.rows st.config.columns
        dragCellId colDelta rowDelta st.mergedCells }
  | .resizeMove dragCellId colDelta rowDelta =>
    { st with
      mergedCells := handleResizeMoveCells st.config.rows st.config.columns
        dragCellId colDelta rowDelta st.mergedCells }
  | .columnResize index deltaX =>
    { st with config := handleColumnResizeMove st.config index deltaX }
  | .rowResize index deltaY =>
    { st with config := handleRowResizeMove st.config index deltaY }
  | .cellResize rowIndex colIndex deltaX deltaY =>
    { st with config := handleIndividualCellResizeMove st.config rowIndex colIndex deltaX deltaY }
  | .reset => resetTable st

/-- Run a sequence of operations. -/
def run (st : AppState) (ops : List Op) : AppState := ops.foldl step st

/-- Does a `click` complete a merge?  True exactly on the branch of
`handleCellClick` that creates a new span: the clicked cell is neither
occupied nor already selected, and adding it brings the selection to ≥ 2. -/
def clickCreates (st : AppState) (row col : Int) : Bool :=
  !isCellMerged st.mergedCells row col &&
  !(st.selectedCells.any fun cell => cell.row == row && cell.col == col) &&
  decide (2 ≤ (st.selectedCells ++ [({ row := row, col := col } : CellPos)]).length)

/-- Does an operation create a span? -/
def createsSpan (st : AppState) : Op → Bool
  | .click row col => clickCreates st row col
  | _ => false

/-- The ids handed out to spans created along an operation sequence, in
creation order (each creation uses the current `nextCellId`). -/
def createdIds (st : AppState) : List Op → List Int
  | [] => []
  | op :: rest =>
    (if createsSpan st op then [st.nextCellId] else []) ++ createdIds (step st op) rest

/-!  Invariants. -/

/-- The merged-span invariant of the spec:
`0 ≤ rowStart < rowEnd ≤ rowCount` and `0 ≤ colStart < colEnd ≤ columnCount`. -/
def spanInvariant (rows columns : Int) (cell : MergedCell) : Prop :=
  0 ≤ cell.rowStart ∧ cell.rowStart < cell.rowEnd ∧ cell.rowEnd ≤ rows ∧
  0 ≤ cell.colStart ∧ cell.colStart < cell.colEnd ∧ cell.colEnd ≤ columns

instance (rows columns : Int) (cell : MergedCell) :
    Decidable (spanInvariant rows columns cell) := by
  unfold spanInvariant
  infer_instance

/-- Every span of the registry satisfies the invariant with respect to the
current dimensions. -/
def allSpansInvariant (st : AppState) : Prop :=
  ∀ cell ∈ st.mergedCells, spanInvariant st.config.rows st.config.columns cell

instance (st : AppState) : Decidable (allSpansInvariant st) := by
  unfold allSpansInvariant
  infer_instance

/-- Two spans have disjoint rectangles. -/
def rectDisjoint (s t : MergedCell) : Bool :=
  decide (s.rowEnd ≤ t.rowStart ∨ t.rowEnd ≤ s.rowStart ∨
          s.colEnd ≤ t.colStart ∨ t.colEnd ≤ s.colStart)

/-- Pairwise disjointness of the registry's rectangles. -/
def spansDisjoint (cells : List MergedCell) : Prop :=
  ∀ s ∈ cells, ∀ t ∈ cells, s = t ∨ rectDisjoint s t = true

instance (cells : List MergedCell) : Decidable (spansDisjoint cells) := by
  unfold spansDisjoint
  infer_instance

/-- Modelled from the spec (§8, testable property): a coordinate of the
grid that "lies inside some span's rectangle without being that span's
top-left anchor" — the cells a row's count is diminished by. -/
def specNonAnchorCovered (cells : List MergedCell) (i j : Int) : Bool :=
  cells.any fun s => covers s i j && !(decide (i = s.rowStart ∧ j = s.colStart))

/-!  Concrete states used to evaluate the definitions. -/

/-- A full-grid 3×3 span. -/
def demoSpan : MergedCell :=
  { id := 1, rowStart := 0, rowEnd := 3, colStart := 0, colEnd := 3, content := "" }

/-- A state holding `demoSpan` under the default 3×3 configuration. -/
def demoState : AppState :=
  { config := initialConfig
    mergedCells := [demoSpan]
    nextCellId := 2
    selectedCells := [] }

/-- A 2×2 span at the origin. -/
def overlapSpanA : MergedCell :=
  { id := 1, rowStart := 0, rowEnd := 2, colStart := 0, colEnd := 2, content := "" }

/-- A 1×1 span at the origin, overlapping `overlapSpanA` (overlap is
reachable through move/resize, which perform no collision checks). -/
def overlapSpanB : MergedCell :=
  { id := 2, rowStart := 0, rowEnd := 1, colStart := 0, colEnd := 1, content := "" }

/-- A state whose registry holds two overlapping spans. -/
def overlapState : AppState :=
  { config := initialConfig
    mergedCells := [overlapSpanA, overlapSpanB]
    nextCellId := 3
    selectedCells := [] }

/-- A 1×2 span in the top row. -/
def topRowSpan : MergedCell :=
  { id := 1, rowStart := 0, rowEnd := 1, colStart := 0, colEnd := 2, content := "" }

/-- A state holding the disjoint single span `topRowSpan`. -/
def topRowState : AppState :=
  { config := initialConfig
    mergedCells := [topRowSpan]
    nextCellId := 2
    selectedCells := [] }

/-- `parseInt(e.target.value) || 1` of the Rows/Columns number inputs:
`parseInt` yields `NaN` on unparseable text (modelled as `Option.none`),
and `NaN || 1` and `0 || 1` both evaluate to 1; every other parsed integer
— negative or above 20 included — is kept as-is.  The `min="1" max="20"`
attributes constrain the spinner arrows only, not typed values. -/
def dimensionInputValue (parsed : Option Int) : Int :=
  match parsed with
  | Option.none => 1
  | some n => if n = 0 then 1 else n

/-- The Rows input `onChange`: `updateConfig('rows', parseInt(v) || 1)`,
followed by the dimension-reset effect. -/
def rowsInputChange (st : AppState) (parsed : Option Int) : AppState :=
  applyConfigUpdate st (ConfigUpdate.rows (dimensionInputValue parsed))

/-- The Columns input `onChange`. -/
def columnsInputChange (st : AppState) (parsed : Option Int) : AppState :=
  applyConfigUpdate st (ConfigUpdate.columns (dimensionInputValue parsed))

/-- Merge twice with a reset in between: each `click 0 0` starts a
selection, each `click 0 1` completes a two-cell merge. -/
def resetReuseOps : List Op :=
  [Op.click 0 0, Op.click 0 1, Op.reset, Op.click 0 0, Op.click 0 1]

/-- The same two merges without the reset, plus two more clicks that
complete a second, disjoint merge. -/
def noResetOps : List Op :=
  [Op.click 0 0, Op.click 0 1, Op.click 2 2, Op.click 1 1]

/-- A state agreeing with `initialState` on every config field printed by
the stylesheet, but differing in gap, sample-text flag, merge registry,
selection set and id counter. -/
def altState : AppState :=
  { config := { initialConfig with gap := 0, fillSampleText := true }
    mergedCells := [topRowSpan]
    nextCellId := 7
    selectedCells := [⟨2, 2⟩] }

end TableGen

namespace TableGen

/-!  Helper lemmas about `Math.min` / `Math.max` over spread lists. -/

theorem foldl_min_le_init (l : List Int) (a : Int) : l.foldl min a ≤ a := by
  induction l generalizing a with
  | nil => exact le_refl a
  | cons b l ih => exact le_trans (ih (min a b)) (min_le_left a b)

theorem foldl_min_le_mem (l : List Int) (a x : Int) (hx : x ∈ l) :
    l.foldl min a ≤ x := by
  induction l generalizing a with
  | nil => cases hx
  | cons b l ih =>
    rcases List.mem_cons.mp hx with h | h
    · subst h
      exact le_trans (foldl_min_le_init l (min a x)) (min_le_right a x)
    · exact ih (min a b) h

theorem foldl_min_mem (l : List Int) (a : Int) :
    l.foldl min a = a ∨ l.foldl min a ∈ l := by
  induction l generalizing a with
  | nil => exact Or.inl rfl
  | cons b l ih =>
    rcases ih (min a b) with h | h
    · rcases min_choice a b with hab | hab
      · exact Or.inl (by rw [List.foldl_cons, h, hab])
      · exact Or.inr (by rw [List.foldl_cons, h, hab]; exact List.mem_cons_self b l)
    · exact Or.inr (List.mem_cons_of_mem b h)

theorem init_le_foldl_max (l : List Int) (a : Int) : a ≤ l.foldl max a := by
  induction l generalizing a with
  | nil => exact le_refl a
  | cons b l ih => exact le_trans (le_max_left a b) (ih (max a b))

theorem mem_le_foldl_max (l : List Int) (a x : Int) (hx : x ∈ l) :
    x ≤ l.foldl max a := by
  induction l generalizing a with
  | nil => cases hx
  | cons b l ih =>
    rcases List.mem_cons.mp hx with h | h
    · subst h
      exact le_trans (le_max_right a x) (init_le_foldl_max l (max a x))
    · exact ih (max a b) h

theorem foldl_max_mem (l : List Int) (a : Int) :
    l.foldl max a = a ∨ l.foldl max a ∈ l := by
  induction l generalizing a with
  | nil => exact Or.inl rfl
  | cons b l ih =>
    rcases ih (max a b) with h | h
    · rcases max_choice a b with hab | hab
      · exact Or.inl (by rw [List.foldl_cons, h, hab])
      · exact Or.inr (by rw [List.foldl_cons, h, hab]; exact List.mem_cons_self b l)
    · exact Or.inr (List.mem_cons_of_mem b h)

theorem listMin_le (l : List Int) (x : Int) (hx : x ∈ l) : listMin l ≤ x := by
  cases l with
  | nil => cases hx
  | cons a l =>
    rcases List.mem_cons.mp hx with h | h
    · subst h; exact foldl_min_le_init l x
    · exact foldl_min_le_mem l a x h

theorem listMin_mem (l : List Int) (hne : l ≠ []) : listMin l ∈ l := by
  cases l with
  | nil => exact absurd rfl hne
  | cons a l =>
    rcases foldl_min_mem l a with h | h
    · rw [listMin, h]; exact List.mem_cons_self a l
    · exact List.mem_cons_of_mem a h

theorem le_listMax (l : List Int) (x : Int) (hx : x ∈ l) : x ≤ listMax l := by
  cases l with
  | nil => cases hx
  | cons a l =>
    rcases List.mem_cons.mp hx with h | h
    · subst h; exact init_le_foldl_max l x
    · exact mem_le_foldl_max l a x h

theorem listMax_mem (l : List Int) (hne : l ≠ []) : listMax l ∈ l := by
  cases l with
  | nil => exact absurd rfl hne
  | cons a l =>
    rcases foldl_max_mem l a with h | h
    · rw [listMax, h]; exact List.mem_cons_self a l
    · exact List.mem_cons_of_mem a h

theorem listMin_le_listMax (l : List Int) (hne : l ≠ []) :
    listMin l ≤ listMax l :=
  listMin_le l (listMax l) (listMax_mem l hne)

/-- C1: completing a selection of two or more distinct in-grid coordinates
appends exactly one new merged span whose rectangle is the axis-aligned
bounding box of the selected coordinates (`rowStart` = min row, `rowEnd` =
max row + 1, `colStart` = min col, `colEnd` = max col + 1); afterwards
every coordinate inside that rectangle is occupied (`isCellMerged`), and
the selection set is cleared. -/
theorem completeMerge_bounding_box (st : AppState) (sel : List CellPos)
    (hlen : 2 ≤ sel.length) (_hnodup : sel.Nodup)
    (hgrid : ∀ p ∈ sel, 0 ≤ p.row ∧ p.row < st.config.rows ∧
      0 ≤ p.col ∧ p.col < st.config.columns) :
    (completeMerge st sel).mergedCells = st.mergedCells ++
      [mergedCellFromSelection st.config.fillSampleText st.nextCellId sel] ∧
    (completeMerge st sel).mergedCells.length = st.mergedCells.length + 1 ∧
    (∀ p ∈ sel,
      (mergedCellFromSelection st.config.fillSampleText st.nextCellId sel).rowStart ≤ p.row ∧
      p.row < (mergedCellFromSelection st.config.fillSampleText st.nextCellId sel).rowEnd ∧
      (mergedCellFromSelection st.config.fillSampleText st.nextCellId sel).colStart ≤ p.col ∧
      p.col < (mergedCellFromSelection st.config.fillSampleText st.nextCellId sel).colEnd) ∧
    (∃ p ∈ sel,
      (mergedCellFromSelection st.config.fillSampleText st.nextCellId sel).rowStart = p.row) ∧
    (∃ p ∈ sel,
      (mergedCellFromSelection st.config.fillSampleText st.nextCellId sel).rowEnd = p.row + 1) ∧
    (∃ p ∈ sel,
      (mergedCellFromSelection st.config.fillSampleText st.nextCellId sel).colStart = p.col) ∧
    (∃ p ∈ sel,
      (mergedCellFromSelection st.config.fillSampleText st.nextCellId sel).colEnd = p.col + 1) ∧
    (∀ r c : Int,
      (mergedCellFromSelection st.config.fillSampleText st.nextCellId sel).rowStart ≤ r →
      r < (mergedCellFromSelection st.config.fillSampleText st.nextCellId sel).rowEnd →
      (mergedCellFromSelection st.config.fillSampleText st.nextCellId sel).colStart ≤ c →
      c < (mergedCellFromSelection st.config.fillSampleText st.nextCellId sel).colEnd →
      isCellMerged (completeMerge st sel).mergedCells r c = true) ∧
    (completeMerge st sel).selectedCells = [] := by
  have hne : sel ≠ [] := by
    cases sel with
    | nil => simp at hlen
    | cons a l => exact List.cons_ne_nil a l
  have hner : sel.map CellPos.row ≠ [] := by
    simpa using hne
  have hnec : sel.map CellPos.col ≠ [] := by
    simpa using hne
  have hRS : (mergedCellFromSelection st.config.fillSampleText st.nextCellId sel).rowStart =
      listMin (sel.map CellPos.row) := rfl
  have hRE : (mergedCellFromSelection st.config.fillSampleText st.nextCellId sel).rowEnd =
      listMax (sel.map CellPos.row) + 1 := rfl
  have hCS : (mergedCellFromSelection st.config.fillSampleText st.nextCellId sel).colStart =
      listMin (sel.map CellPos.col) := rfl
  have hCE : (mergedCellFromSelection st.config.fillSampleText st.nextCellId sel).colEnd =
      listMax (sel.map CellPos.col) + 1 := rfl
  refine ⟨rfl, by simp [completeMerge], ?_, ?_, ?_, ?_, ?_, ?_, rfl⟩
  · intro p hp
    rw [hRS, hRE, hCS, hCE]
    exact ⟨listMin_le _ _ (List.mem_map_of_mem _ hp),
      Int.lt_add_one_iff.mpr (le_listMax _ _ (List.mem_map_of_mem _ hp)),
      listMin_le _ _ (List.mem_map_of_mem _ hp),
      Int.lt_add_one_iff.mpr (le_listMax _ _ (List.mem_map_of_mem _ hp))⟩
  · rcases List.mem_map.mp (listMin_mem _ hner) with ⟨p, hp, hpe⟩
    exact ⟨p, hp, by rw [hRS, hpe]⟩
  · rcases List.mem_map.mp (listMax_mem _ hner) with ⟨p, hp, hpe⟩
    exact ⟨p, hp, by rw [hRE, hpe]⟩
  · rcases List.mem_map.mp (listMin_mem _ hnec) with ⟨p, hp, hpe⟩
    exact ⟨p, hp, by rw [hCS, hpe]⟩
  · rcases List.mem_map.mp (listMax_mem _ hnec) with ⟨p, hp, hpe⟩
    exact ⟨p, hp, by rw [hCE, hpe]⟩
  · intro r c h1 h2 h3 h4
    have hcov : covers (mergedCellFromSelection st.config.fillSampleText st.nextCellId sel)
        r c = true := by
      simp only [covers, decide_eq_true_eq]
      exact ⟨h1, h2, h3, h4⟩
    simp [completeMerge, isCellMerged, List.any_append, hcov]

/-- Witness for C1 at the spec's scenario: selecting (0,0) then (0,1) in
the initial state creates one span. -/
theorem completeMerge_bounding_box_witness :
    (completeMerge initialState [⟨0, 0⟩, ⟨0, 1⟩]).mergedCells.length =
      initialState.mergedCells.length + 1 :=
  (completeMerge_bounding_box initialState [⟨0, 0⟩, ⟨0, 1⟩]
    (by decide) (by decide) (by decide)).2.1

/-!  Markup generation: counting row groups and cell elements. -/

theorem covers_true_iff (cell : MergedCell) (row col : Int) :
    covers cell row col = true ↔
      cell.rowStart ≤ row ∧ row < cell.rowEnd ∧
      cell.colStart ≤ col ∧ col < cell.colEnd := by
  simp [covers]

theorem covers_unique {cells : List MergedCell} (hdisj : spansDisjoint cells)
    {s t : MergedCell} (hs : s ∈ cells) (ht : t ∈ cells) {i j : Int}
    (h1 : covers s i j = true) (h2 : covers t i j = true) : s = t := by
  rcases hdisj s hs t ht with h | h
  · exact h
  · rw [covers_true_iff] at h1 h2
    simp only [rectDisjoint, decide_eq_true_eq] at h
    rcases h with h | h | h | h <;> omega

theorem length_filterMap_eq_length_filter {α β : Type} (l : List α)
    (f : α → Option β) :
    (l.filterMap f).length = (l.filter fun a => (f a).isSome).length := by
  induction l with
  | nil => rfl
  | cons a l ih =>
    cases hfa : f a <;>
      simp [List.filterMap_cons, List.filter_cons, hfa, ih]

theorem length_filter_add_length_filter_not {α : Type} (l : List α) (p : α → Bool) :
    (l.filter p).length + (l.filter fun a => !(p a)).length = l.length := by
  induction l with
  | nil => rfl
  | cons a l ih =>
    cases hpa : p a <;> simp [List.filter_cons, hpa] <;> omega

theorem cellHTML_isSome {st : AppState} (hdisj : spansDisjoint st.mergedCells)
    (i j : Int) :
    (cellHTML st.config st.mergedCells st.selectedCells i j).isSome =
      !(specNonAnchorCovered st.mergedCells i j) := by
  unfold cellHTML
  cases hfind : getMergedCell st.mergedCells i j with
  | none =>
    have hnone := List.find?_eq_none.mp hfind
    have hcov : specNonAnchorCovered st.mergedCells i j = false := by
      rw [specNonAnchorCovered, List.any_eq_false]
      intro s hsm
      rw [Bool.and_eq_true]
      rintro ⟨h1, -⟩
      exact hnone s hsm h1
    simp [hcov]
  | some c =>
    replace hfind : List.find? (fun cell => covers cell i j) st.mergedCells = some c := hfind
    have hc : covers c i j = true := by
      have h := List.find?_some hfind
      simpa using h
    have hmem : c ∈ st.mergedCells := List.mem_of_find?_eq_some hfind
    by_cases hanchor : i = c.rowStart ∧ j = c.colStart
    · have hcov : specNonAnchorCovered st.mergedCells i j = false := by
        rw [specNonAnchorCovered, List.any_eq_false]
        intro s hsm
        rw [Bool.and_eq_true]
        rintro ⟨h1, h2⟩
        rw [covers_unique hdisj hsm hmem h1 hc] at h2
        simp [hanchor] at h2
      obtain ⟨hi, hj⟩ := hanchor
      subst hi
      subst hj
      simp [hcov]
    · have hcov : specNonAnchorCovered st.mergedCells i j = true := by
        rw [specNonAnchorCovered, List.any_eq_true]
        exact ⟨c, hmem, by simp [hc, hanchor]⟩
      simp [hanchor, hcov]

theorem rowCellsHTML_length {st : AppState} (hdisj : spansDisjoint st.mergedCells)
    (i : Int) :
    (rowCellsHTML st i).length =
      st.config.columns.toNat -
        ((List.range st.config.columns.toNat).filter fun (j : Nat) =>
          specNonAnchorCovered st.mergedCells i (j : Int)).length := by
  rw [rowCellsHTML, length_filterMap_eq_length_filter]
  have heq : List.filter
      (fun (a : Nat) =>
        (cellHTML st.config st.mergedCells st.selectedCells i (a : Int)).isSome)
      (List.range st.config.columns.toNat) =
    List.filter
      (fun (a : Nat) => !(specNonAnchorCovered st.mergedCells i (a : Int)))
      (List.range st.config.columns.toNat) :=
    List.filter_congr fun j _ => cellHTML_isSome hdisj i (j : Int)
  rw [heq]
  have hsplit := length_filter_add_length_filter_not
    (List.range st.config.columns.toNat)
    (fun (j : Nat) => specNonAnchorCovered st.mergedCells i (j : Int))
  rw [List.length_range] at hsplit
  omega

/-- C2: for every state whose spans satisfy the invariant and are pairwise
disjoint, the generated markup is the concatenation of exactly `rowCount`
row groups, and row group `i` contains exactly `columnCount` cell elements
minus the coordinates of row `i` that lie inside some span's rectangle
without being that span's top-left anchor. -/
theorem generateTableHTML_row_and_cell_counts (st : AppState)
    (hrows : 1 ≤ st.config.rows)
    (_hinv : allSpansInvariant st) (hdisj : spansDisjoint st.mergedCells) :
    generateTableHTML st =
      "<table style=\"border-collapse: collapse;\">\n" ++
        String.join (tableRowsHTML st) ++ "</table>" ∧
    ((tableRowsHTML st).length : Int) = st.config.rows ∧
    ∀ i : Int, (rowCellsHTML st i).length =
      st.config.columns.toNat -
        ((List.range st.config.columns.toNat).filter fun (j : Nat) =>
          specNonAnchorCovered st.mergedCells i (j : Int)).length := by
  refine ⟨rfl, ?_, fun i => rowCellsHTML_length hdisj i⟩
  rw [tableRowsHTML, List.length_map, List.length_range,
    Int.toNat_of_nonneg (by omega)]

/-- Witness for C2 at a concrete state with one disjoint span. -/
theorem generateTableHTML_row_and_cell_counts_witness :
    ((tableRowsHTML topRowState).length : Int) = topRowState.config.rows :=
  (generateTableHTML_row_and_cell_counts topRowState
    (by decide) (by decide) (by decide)).2.1

/-!  Invariant preservation of the individual operations. -/

theorem clamp_bounds (lo hi x : Int) (h : lo ≤ hi) :
    lo ≤ max lo (min x hi) ∧ max lo (min x hi) ≤ hi :=
  ⟨le_max_left _ _, max_le h (min_le_right _ _)⟩

theorem dragMoveCells_invariant {rows columns : Int} (dragCellId colDelta rowDelta : Int)
    {cells : List MergedCell}
    (hinv : ∀ cell ∈ cells, spanInvariant rows columns cell) :
    ∀ cell ∈ handleDragMoveCells rows columns dragCellId colDelta rowDelta cells,
      spanInvariant rows columns cell := by
  intro cell hcell
  rw [handleDragMoveCells, List.mem_map] at hcell
  rcases hcell with ⟨c, hc, hceq⟩
  obtain ⟨h1, h2, h3, h4, h5, h6⟩ := hinv c hc
  subst hceq
  simp only []
  split
  · split
    · exact ⟨h1, h2, h3, h4, h5, h6⟩
    · obtain ⟨hc1, hc2⟩ := clamp_bounds 0 (columns - (c.colEnd - c.colStart))
        (c.colStart + colDelta) (by omega)
      obtain ⟨hr1, hr2⟩ := clamp_bounds 0 (rows - (c.rowEnd - c.rowStart))
        (c.rowStart + rowDelta) (by omega)
      unfold spanInvariant
      dsimp only
      refine ⟨?_, ?_, ?_, ?_, ?_, ?_⟩ <;> omega
  · exact ⟨h1, h2, h3, h4, h5, h6⟩

theorem resizeMoveCells_invariant {rows columns : Int} (dragCellId colDelta rowDelta : Int)
    {cells : List MergedCell}
    (hinv : ∀ cell ∈ cells, spanInvariant rows columns cell) :
    ∀ cell ∈ handleResizeMoveCells rows columns dragCellId colDelta rowDelta cells,
      spanInvariant rows columns cell := by
  intro cell hcell
  rw [handleResizeMoveCells, List.mem_map] at hcell
  rcases hcell with ⟨c, hc, hceq⟩
  obtain ⟨h1, h2, h3, h4, h5, h6⟩ := hinv c hc
  subst hceq
  simp only []
  split
  · split
    · exact ⟨h1, h2, h3, h4, h5, h6⟩
    · obtain ⟨hc1, hc2⟩ := clamp_bounds (c.colStart + 1) columns
        (c.colStart + (c.colEnd - c.colStart) + colDelta) (by omega)
      obtain ⟨hr1, hr2⟩ := clamp_bounds (c.rowStart + 1) rows
        (c.rowStart + (c.rowEnd - c.rowStart) + rowDelta) (by omega)
      unfold spanInvariant
      dsimp only
      refine ⟨?_, ?_, ?_, ?_, ?_, ?_⟩ <;> omega
  · exact ⟨h1, h2, h3, h4, h5, h6⟩

theorem mergedCellFromSelection_invariant (rows columns : Int)
    (fillSampleText : Bool) (nextCellId : Int) (sel : List CellPos)
    (hne : sel ≠ [])
    (hall : ∀ p ∈ sel, 0 ≤ p.row ∧ p.row < rows ∧ 0 ≤ p.col ∧ p.col < columns) :
    spanInvariant rows columns (mergedCellFromSelection fillSampleText nextCellId sel) := by
  have hner : sel.map CellPos.row ≠ [] := by simpa using hne
  have hnec : sel.map CellPos.col ≠ [] := by simpa using hne
  rcases List.mem_map.mp (listMin_mem _ hner) with ⟨p1, hp1, he1⟩
  rcases List.mem_map.mp (listMax_mem _ hner) with ⟨p2, hp2, he2⟩
  rcases List.mem_map.mp (listMin_mem _ hnec) with ⟨p3, hp3, he3⟩
  rcases List.mem_map.mp (listMax_mem _ hnec) with ⟨p4, hp4, he4⟩
  obtain ⟨ha1, ha2, ha3, ha4⟩ := hall p1 hp1
  obtain ⟨hb1, hb2, hb3, hb4⟩ := hall p2 hp2
  obtain ⟨hd1, hd2, hd3, hd4⟩ := hall p3 hp3
  obtain ⟨he1b, he2b, he3b, he4b⟩ := hall p4 hp4
  have hmr := listMin_le_listMax _ hner
  have hmc := listMin_le_listMax _ hnec
  unfold spanInvariant mergedCellFromSelection
  dsimp only
  refine ⟨?_, ?_, ?_, ?_, ?_, ?_⟩ <;> omega

theorem handleCellClick_invariant (st : AppState) (row col : Int)
    (hinv : allSpansInvariant st)
    (hr1 : 0 ≤ row) (hr2 : row < st.config.rows)
    (hc1 : 0 ≤ col) (hc2 : col < st.config.columns)
    (hsel : ∀ p ∈ st.selectedCells, 0 ≤ p.row ∧ p.row < st.config.rows ∧
      0 ≤ p.col ∧ p.col < st.config.columns) :
    allSpansInvariant (handleCellClick st row col) := by
  unfold handleCellClick
  split
  · intro cell hcell
    exact hinv cell (List.mem_of_mem_filter hcell)
  · split
    · exact hinv
    · simp only []
      split
      · intro cell hcell
        rw [completeMerge] at hcell
        rcases List.mem_append.mp hcell with h | h
        · exact hinv cell h
        · rw [List.mem_singleton] at h
          subst h
          apply mergedCellFromSelection_invariant
          · simp
          · intro p hp
            rcases List.mem_append.mp hp with h | h
            · exact hsel p h
            · rw [List.mem_singleton] at h
              subst h
              exact ⟨hr1, hr2, hc1, hc2⟩
      · exact hinv

/-- C3 counterexample: a dimension change does not preserve the merged-span
invariant.  `demoState` holds a 3×3 span satisfying the invariant; setting
the row count to 1 (which only resets the sizing arrays, never clips or
removes spans) leaves the span with `rowEnd = 3 > rowCount = 1`. -/
theorem dimension_change_violates_span_invariant :
    allSpansInvariant demoState ∧
    ¬ allSpansInvariant (step demoState (Op.setField (ConfigUpdate.rows 1))) := by
  decide

/-- C3 (amended): every operation other than a dimension change — cell
click (select / unmerge / merge-complete, for in-grid coordinates), span
removal, span move, span resize, axis resize, single-cell resize,
non-dimension style change, and reset — preserves the merged-span
invariant.  A dimension change need not preserve it (see the
counterexample). -/
theorem ops_preserve_span_invariant (st : AppState)
    (hinv : allSpansInvariant st)
    (hsel : ∀ p ∈ st.selectedCells, 0 ≤ p.row ∧ p.row < st.config.rows ∧
      0 ≤ p.col ∧ p.col < st.config.columns) :
    (∀ row col : Int, 0 ≤ row → row < st.config.rows →
      0 ≤ col → col < st.config.columns →
      allSpansInvariant (step st (Op.click row col))) ∧
    (∀ spanId : Int, allSpansInvariant (step st (Op.removeSpan spanId))) ∧
    (∀ dragCellId colDelta rowDelta : Int,
      allSpansInvariant (step st (Op.dragMove dragCellId colDelta rowDelta))) ∧
    (∀ dragCellId colDelta rowDelta : Int,
      allSpansInvariant (step st (Op.resizeMove dragCellId colDelta rowDelta))) ∧
    (∀ (index : Nat) (deltaX : Int),
      allSpansInvariant (step st (Op.columnResize index deltaX))) ∧
    (∀ (index : Nat) (deltaY : Int),
      allSpansInvariant (step st (Op.rowResize index deltaY))) ∧
    (∀ (rowIndex colIndex : Nat) (deltaX deltaY : Int),
      allSpansInvariant (step st (Op.cellResize rowIndex colIndex deltaX deltaY))) ∧
    (∀ u : ConfigUpdate, u.touchesDims = false →
      allSpansInvariant (step st (Op.setField u))) ∧
    allSpansInvariant (step st Op.reset) := by
  refine ⟨?_, ?_, ?_, ?_, ?_, ?_, ?_, ?_, ?_⟩
  · intro row col h1 h2 h3 h4
    exact handleCellClick_invariant st row col hinv h1 h2 h3 h4 hsel
  · intro spanId cell hcell
    exact hinv cell (List.mem_of_mem_filter hcell)
  · intro dragCellId colDelta rowDelta
    exact dragMoveCells_invariant dragCellId colDelta rowDelta hinv
  · intro dragCellId colDelta rowDelta
    exact resizeMoveCells_invariant dragCellId colDelta rowDelta hinv
  · intro index deltaX
    exact hinv
  · intro index deltaY
    exact hinv
  · intro rowIndex colIndex deltaX deltaY
    exact hinv
  · intro u hu
    cases u <;> simp [ConfigUpdate.touchesDims] at hu ⊢ <;> exact hinv
  · intro cell hcell
    simp [step, resetTable, initialState] at hcell

/-- Witness for the amended C3 at a concrete state and operation. -/
theorem ops_preserve_span_invariant_witness :
    allSpansInvariant (step demoState (Op.dragMove 1 1 1)) :=
  (ops_preserve_span_invariant demoState (by decide) (by decide)).2.2.1 1 1 1

/-- C6: a resize step applied to spans satisfying
`rowStart < rowEnd ≤ rowCount` and `colStart < colEnd ≤ columnCount`
yields spans satisfying the same bounds, for every pointer displacement
(the extent is floored at one row/column beyond the start and capped at
the table bounds). -/
theorem resizeMove_preserves_span_invariant
    (rows columns dragCellId colDelta rowDelta : Int) (cells : List MergedCell)
    (hinv : ∀ cell ∈ cells, spanInvariant rows columns cell) :
    ∀ cell ∈ handleResizeMoveCells rows columns dragCellId colDelta rowDelta cells,
      spanInvariant rows columns cell :=
  resizeMoveCells_invariant dragCellId colDelta rowDelta hinv

/-- Witness for C6: resizing the full 3×3 span by deltas (+100, −100)
shrinks it to one row, still within bounds. -/
theorem resizeMove_preserves_span_invariant_witness :
    spanInvariant 3 3
      { id := 1, rowStart := 0, rowEnd := 1, colStart := 0, colEnd := 3, content := "" } :=
  resizeMove_preserves_span_invariant 3 3 1 100 (-100) [demoSpan] (by decide)
    { id := 1, rowStart := 0, rowEnd := 1, colStart := 0, colEnd := 3, content := "" }
    (by decide)

/-- C4: the dimension inputs do not clamp to [1,20].  The stored value is
`parseInt(input) || 1`: typing 25 stores 25 (> 20) and typing −5 stores −5
(< 1); only unparseable text and 0 fall back to 1.  This contradicts the
documented 1–20 range (README and the inputs' own `min`/`max` attributes),
so the claim reflects the intent and the code is the slip. -/
theorem dimension_inputs_not_clamped :
    (rowsInputChange initialState (some 25)).config.rows = 25 ∧
    ¬ (rowsInputChange initialState (some 25)).config.rows ≤ 20 ∧
    (rowsInputChange initialState (some (-5))).config.rows = -5 ∧
    ¬ 1 ≤ (rowsInputChange initialState (some (-5))).config.rows ∧
    (columnsInputChange initialState (some 25)).config.columns = 25 ∧
    (rowsInputChange initialState Option.none).config.rows = 1 ∧
    (rowsInputChange initialState (some 0)).config.rows = 1 := by
  decide

/-- C5 counterexample: with two overlapping spans both containing (0,0)
(overlap is reachable through move/resize), the owning span returned by
`getMergedCell` is `overlapSpanA`, yet clicking (0,0) removes *both*
spans: `overlapSpanB` is not left unchanged as the claim states. -/
theorem click_unmerge_not_only_owning_span :
    getMergedCell overlapState.mergedCells 0 0 = some overlapSpanA ∧
    overlapSpanB ∈ overlapState.mergedCells ∧
    (handleCellClick overlapState 0 0).mergedCells = [] ∧
    overlapSpanB ∉ (handleCellClick overlapState 0 0).mergedCells := by
  decide

/-- C5 (amended): clicking an occupied cell removes every span whose
rectangle contains the clicked coordinate and clears the selection set;
spans not containing the coordinate are kept, unchanged and in order.
When the registry is pairwise disjoint this removes exactly the owning
span. -/
theorem click_unmerge_filters_covering (st : AppState) (row col : Int)
    (hocc : isCellMerged st.mergedCells row col = true) :
    (handleCellClick st row col).mergedCells =
      st.mergedCells.filter (fun cell => !(covers cell row col)) ∧
    (handleCellClick st row col).selectedCells = [] ∧
    (∀ cell, cell ∈ (handleCellClick st row col).mergedCells ↔
      cell ∈ st.mergedCells ∧ covers cell row col = false) ∧
    (∀ cell, getMergedCell st.mergedCells row col = some cell →
      cell ∉ (handleCellClick st row col).mergedCells) ∧
    (spansDisjoint st.mergedCells →
      ∀ own, getMergedCell st.mergedCells row col = some own →
        ∀ cell ∈ st.mergedCells, cell ≠ own →
          cell ∈ (handleCellClick st row col).mergedCells) := by
  have hstep : handleCellClick st row col =
      { st with
        mergedCells := st.mergedCells.filter fun cell => !(covers cell row col)
        selectedCells := [] } := by
    unfold handleCellClick
    rw [if_pos hocc]
  rw [hstep]
  refine ⟨rfl, rfl, ?_, ?_, ?_⟩
  · intro cell
    rw [List.mem_filter, Bool.not_eq_true']
  · intro cell hfind
    replace hfind : List.find? (fun c => covers c row col) st.mergedCells = some cell := hfind
    have hcov : covers cell row col = true := by
      have h := List.find?_some hfind
      simpa using h
    intro hmem
    rw [List.mem_filter, Bool.not_eq_true'] at hmem
    rw [hmem.2] at hcov
    cases hcov
  · intro hdisj own hfind cell hcell hne
    replace hfind : List.find? (fun c => covers c row col) st.mergedCells = some own := hfind
    have hcovown : covers own row col = true := by
      have h := List.find?_some hfind
      simpa using h
    have hownmem : own ∈ st.mergedCells := List.mem_of_find?_eq_some hfind
    rw [List.mem_filter, Bool.not_eq_true']
    refine ⟨hcell, ?_⟩
    cases hcov : covers cell row col with
    | false => rfl
    | true => exact absurd (covers_unique hdisj hcell hownmem hcov hcovown) hne

/-- Witness for the amended C5: clicking the occupied cell (0,0) of the
single-span state removes that span and clears the selection. -/
theorem click_unmerge_filters_covering_witness :
    (handleCellClick topRowState 0 0).mergedCells =
      topRowState.mergedCells.filter (fun cell => !(covers cell 0 0)) :=
  (click_unmerge_filters_covering topRowState 0 0 (by decide)).1

/-- C7: after changing the column count or the row count, the width array
has length equal to the new column count with every entry 80 and the
height array has length equal to the new row count with every entry 50 —
whatever manual sizing the arrays held before. -/
theorem dimension_change_resets_axis_arrays (st : AppState) (v : Int)
    (hv : 0 ≤ v) (hr : 0 ≤ st.config.rows) (hc : 0 ≤ st.config.columns) :
    (((step st (Op.setField (ConfigUpdate.columns v))).config.columnWidths.length : Int) = v ∧
     (∀ w ∈ (step st (Op.setField (ConfigUpdate.columns v))).config.columnWidths, w = 80) ∧
     (((step st (Op.setField (ConfigUpdate.columns v))).config.rowHeights.length : Int) =
       st.config.rows) ∧
     (∀ h ∈ (step st (Op.setField (ConfigUpdate.columns v))).config.rowHeights, h = 50)) ∧
    (((step st (Op.setField (ConfigUpdate.rows v))).config.rowHeights.length : Int) = v ∧
     (∀ h ∈ (step st (Op.setField (ConfigUpdate.rows v))).config.rowHeights, h = 50) ∧
     (((step st (Op.setField (ConfigUpdate.rows v))).config.columnWidths.length : Int) =
       st.config.columns) ∧
     (∀ w ∈ (step st (Op.setField (ConfigUpdate.rows v))).config.columnWidths, w = 80)) := by
  simp only [step, applyConfigUpdate, updateConfig, ConfigUpdate.touchesDims,
    dimensionEffect, if_true]
  refine ⟨⟨?_, ?_, ?_, ?_⟩, ⟨?_, ?_, ?_, ?_⟩⟩
  · rw [List.length_replicate, Int.toNat_of_nonneg hv]
  · intro w hw
    exact List.eq_of_mem_replicate hw
  · rw [List.length_replicate, Int.toNat_of_nonneg hr]
  · intro h hh
    exact List.eq_of_mem_replicate hh
  · rw [List.length_replicate, Int.toNat_of_nonneg hv]
  · intro h hh
    exact List.eq_of_mem_replicate hh
  · rw [List.length_replicate, Int.toNat_of_nonneg hc]
  · intro w hw
    exact List.eq_of_mem_replicate hw

/-- Witness for C7: growing the default state to 5 columns. -/
theorem dimension_change_resets_axis_arrays_witness :
    ((step initialState (Op.setField (ConfigUpdate.columns 5))).config.columnWidths.length
      : Int) = 5 :=
  (dimension_change_resets_axis_arrays initialState 5
    (by decide) (by decide) (by decide)).1.1

/-!  Span-id assignment. -/

theorem step_nextCellId_le (st : AppState) (op : Op) (hop : op ≠ Op.reset) :
    st.nextCellId ≤ (step st op).nextCellId := by
  cases op with
  | click row col =>
    show st.nextCellId ≤ (handleCellClick st row col).nextCellId
    unfold handleCellClick
    split
    · exact le_refl _
    · split
      · exact le_refl _
      · simp only []
        split
        · rw [completeMerge]
          dsimp only
          omega
        · exact le_refl _
  | removeSpan spanId => exact le_refl _
  | setField u =>
    show st.nextCellId ≤ (applyConfigUpdate st u).nextCellId
    rw [applyConfigUpdate]
  | dragMove dragCellId colDelta rowDelta => exact le_refl _
  | resizeMove dragCellId colDelta rowDelta => exact le_refl _
  | columnResize index deltaX => exact le_refl _
  | rowResize index deltaY => exact le_refl _
  | cellResize rowIndex colIndex deltaX deltaY => exact le_refl _
  | reset => exact absurd rfl hop

theorem createsSpan_step_nextCellId (st : AppState) (op : Op)
    (h : createsSpan st op = true) :
    (step st op).nextCellId = st.nextCellId + 1 := by
  cases op with
  | click row col =>
    simp only [createsSpan, clickCreates, Bool.and_eq_true, Bool.not_eq_true',
      decide_eq_true_eq] at h
    obtain ⟨⟨ha, hb⟩, hlen⟩ := h
    show (handleCellClick st row col).nextCellId = st.nextCellId + 1
    unfold handleCellClick
    simp only [ha, hb, Bool.false_eq_true, if_false]
    rw [if_pos hlen]
    rfl
  | removeSpan spanId => exact absurd h (by simp [createsSpan])
  | setField u => exact absurd h (by simp [createsSpan])
  | dragMove dragCellId colDelta rowDelta => exact absurd h (by simp [createsSpan])
  | resizeMove dragCellId colDelta rowDelta => exact absurd h (by simp [createsSpan])
  | columnResize index deltaX => exact absurd h (by simp [createsSpan])
  | rowResize index deltaY => exact absurd h (by simp [createsSpan])
  | cellResize rowIndex colIndex deltaX deltaY => exact absurd h (by simp [createsSpan])
  | reset => exact absurd h (by simp [createsSpan])

/-- C8 counterexample: the id counter is *not* monotonic across a reset.
Creating a merge, resetting, and creating another merge assigns the id 1
to two distinct created spans: `resetTable` sets `nextCellId` back to 1. -/
theorem span_id_reused_after_reset :
    createdIds initialState resetReuseOps = [1, 1] ∧
    ¬ List.Pairwise (fun a b => a < b) (createdIds initialState resetReuseOps) := by
  decide

/-- C8 (amended): along every operation sequence that contains no reset,
span ids are assigned from a monotonically increasing counter and an id
once assigned is never assigned to a later-created span (the created-id
sequence is strictly increasing).  Reset restarts the counter at 1, so ids
can be reassigned after a reset. -/
theorem createdIds_strictly_increasing (st : AppState) (ops : List Op)
    (hnr : Op.reset ∉ ops) :
    List.Pairwise (fun a b => a < b) (createdIds st ops) ∧
    ∀ i ∈ createdIds st ops, st.nextCellId ≤ i := by
  induction ops generalizing st with
  | nil =>
    refine ⟨List.Pairwise.nil, ?_⟩
    intro i hi
    simp [createdIds] at hi
  | cons op rest ih =>
    have hop : op ≠ Op.reset := by
      intro heq
      exact hnr (heq ▸ List.mem_cons_self op rest)
    have hrest : Op.reset ∉ rest := fun hmem => hnr (List.mem_cons_of_mem op hmem)
    obtain ⟨hpair, hge⟩ := ih (step st op) hrest
    have hmono := step_nextCellId_le st op hop
    cases hcr : createsSpan st op with
    | true =>
      have hstep := createsSpan_step_nextCellId st op hcr
      simp only [createdIds, hcr, if_true, List.singleton_append]
      constructor
      · refine List.Pairwise.cons ?_ hpair
        intro b hb
        have := hge b hb
        omega
      · intro i hi
        rcases List.mem_cons.mp hi with hi | hi
        · omega
        · have := hge i hi
          omega
    | false =>
      simp only [createdIds, hcr, Bool.false_eq_true, if_false, List.nil_append]
      refine ⟨hpair, ?_⟩
      intro i hi
      have := hge i hi
      omega

/-- Witness for the amended C8: four clicks creating two merges without a
reset produce strictly increasing ids. -/
theorem createdIds_strictly_increasing_witness :
    List.Pairwise (fun a b => a < b) (createdIds initialState noResetOps) :=
  (createdIds_strictly_increasing initialState noResetOps (by decide)).1

/-- C9: the stylesheet is a function of the printed config fields alone —
two states agreeing on border style/color, padding, background, radius and
the sizing arrays produce byte-for-byte identical output even when their
merge registries, selection sets, id counters (and even gap or sample-text
flag) differ — and it consists of the table rule, the shared td rule, one
width rule per column index and one height rule per row index. -/
theorem generateCSS_depends_only_on_config (s1 s2 : AppState)
    (h1 : s1.config.borderStyle = s2.config.borderStyle)
    (h2 : s1.config.borderColor = s2.config.borderColor)
    (h3 : s1.config.cellPadding = s2.config.cellPadding)
    (h4 : s1.config.cellBackgroundColor = s2.config.cellBackgroundColor)
    (h5 : s1.config.borderRadius = s2.config.borderRadius)
    (h6 : s1.config.columnWidths = s2.config.columnWidths)
    (h7 : s1.config.rowHeights = s2.config.rowHeights) :
    generateCSSOfState s1 = generateCSSOfState s2 ∧
    generateCSSOfState s1 =
      cssTableRule ++ cssTdRule s1.config ++
        String.join (columnSizeRules s1.config) ++
        String.join (rowSizeRules s1.config) ∧
    (columnSizeRules s1.config).length = s1.config.columnWidths.length ∧
    (rowSizeRules s1.config).length = s1.config.rowHeights.length := by
  refine ⟨?_, rfl, List.length_mapIdx, List.length_mapIdx⟩
  unfold generateCSSOfState generateCSS cssTdRule borderValue
    columnSizeRules rowSizeRules
  rw [h1, h2, h3, h4, h5, h6, h7]

/-- Witness for C9: `initialState` and `altState` differ in gap,
sample-text flag, spans, selection and counter, yet print the same
stylesheet. -/
theorem generateCSS_depends_only_on_config_witness :
    generateCSSOfState initialState = generateCSSOfState altState :=
  (generateCSS_depends_only_on_config initialState altState
    rfl rfl rfl rfl rfl rfl rfl).1

theorem forall₂_map_self {α β : Type} {R : α → β → Prop} (f : α → β)
    (h : ∀ a, R a (f a)) : ∀ l : List α, List.Forall₂ R l (l.map f)
  | [] => List.Forall₂.nil
  | a :: l => List.Forall₂.cons (h a) (forall₂_map_self f h l)

/-- C10: a move step neither creates nor deletes spans; every span keeps
its id, content and row/column span sizes, and every span whose id differs
from the dragged id is completely unchanged. -/
theorem dragMove_frame (rows columns dragCellId colDelta rowDelta : Int)
    (cells : List MergedCell) :
    (handleDragMoveCells rows columns dragCellId colDelta rowDelta cells).length =
      cells.length ∧
    List.Forall₂ (fun c c' =>
        c'.id = c.id ∧ c'.content = c.content ∧
        c'.rowEnd - c'.rowStart = c.rowEnd - c.rowStart ∧
        c'.colEnd - c'.colStart = c.colEnd - c.colStart ∧
        (c.id ≠ dragCellId → c' = c))
      cells (handleDragMoveCells rows columns dragCellId colDelta rowDelta cells) := by
  constructor
  · exact List.length_map _ _
  · apply forall₂_map_self
    intro c
    simp only []
    by_cases hid : (c.id == dragCellId) = true
    · have hideq : c.id = dragCellId := beq_iff_eq.mp hid
      rw [if_pos hid]
      split
      · exact ⟨rfl, rfl, rfl, rfl, fun _ => rfl⟩
      · refine ⟨rfl, rfl, ?_, ?_, ?_⟩
        · dsimp only
          omega
        · dsimp only
          omega
        · intro hne
          exact absurd hideq hne
    · rw [if_neg hid]
      exact ⟨rfl, rfl, rfl, rfl, fun _ => rfl⟩

/-- Witness for C10 at a concrete drag step. -/
theorem dragMove_frame_witness :
    (handleDragMoveCells 3 3 1 1 1 [topRowSpan]).length = [topRowSpan].length :=
  (dragMove_frame 3 3 1 1 1 [topRowSpan]).1

end TableGen
